import Mathlib

/-!
Shallow embedding of the Matchup Adjustment Engine of this repository.

The repository has two variants of the core scoring function `compute_model`:
one in `src/app.py` and one in `src/Inputs/app.py`.  Both are embedded below
over exact rational arithmetic (`ℚ`): the Python code computes with floats,
and we model the real-number intent of those formulas.

Table cells that can be NaN/missing in the source (`opponent`, `yprr_blitz`,
`route_share`) are modelled as `Option ℚ` / `Option String`; the defense
table, whose percentage columns are divided by 100 at load time before
`compute_model` runs, is modelled as the already-normalized table keyed by
team (an association list, mirroring `def_df.loc[opponent]` /
`opponent in def_df.index`).

`pandas.DataFrame.sort_values` uses an unstable quicksort by default, so the
relative order of rows with equal sort keys is implementation-defined; we
model the sort as a stable descending sort (`List.insertionSort`).
-/

/-- One row of the prepared WR table handed to `compute_model`
(after the blitz and matchup merges performed at load time). -/
structure WRRow where
  player : String
  team : String
  opponent : Option String
  base_yprr : ℚ
  routes_played : ℚ
  yprr_man : ℚ
  yprr_zone : ℚ
  yprr_1high : ℚ
  yprr_2high : ℚ
  yprr_0high : ℚ
  yprr_blitz : Option ℚ
  route_share : Option ℚ

/-- One row of the defense-tendency table, after the load-time division of
every percentage column by 100. -/
structure DefRow where
  man_pct : ℚ
  zone_pct : ℚ
  onehigh_pct : ℚ
  twohigh_pct : ℚ
  zerohigh_pct : ℚ
  blitz_pct : ℚ

/-- The defense table: keyed by team code. -/
abbrev DefTable := List (String × DefRow)

/-- Keyword parameters of `compute_model` in `src/app.py`, with their
default values. -/
structure ConfigA where
  max_penalty : ℚ := 0.8
  exponent : ℕ := 2
  start_penalty : ℚ := 0.50
  end_penalty : ℚ := 0.05

/-- Keyword parameters of `compute_model` in `src/Inputs/app.py`, with their
default values (`start_penalty`/`end_penalty` are on the 0–100 scale there). -/
structure ConfigB where
  max_penalty : ℚ := 0.6
  exponent : ℕ := 2
  start_penalty : ℚ := 30
  end_penalty : ℚ := 5
  deviation_boost : ℚ := 0.25

/-- The route-share penalty, shared verbatim by both variants:
`if route_share >= start_penalty: 0 elif route_share <= end_penalty:
max_penalty else max_penalty * ((start_penalty - route_share) /
(start_penalty - end_penalty)) ** exponent`. -/
def penaltyFor (maxp : ℚ) (e : ℕ) (startp endp rs : ℚ) : ℚ :=
  if startp ≤ rs then 0
  else if rs ≤ endp then maxp
  else maxp * ((startp - rs) / (startp - endp)) ^ e

/-- `wr_df["routes_played"].max()`: maximum of a column.  (pandas returns NaN
on an empty table; that value is never consumed, since an empty table
produces no scored rows, so we return 0 there.) -/
def seriesMax : List ℚ → ℚ
  | [] => 0
  | x :: xs => xs.foldl max x

/-- `league_lead_routes = wr_df["routes_played"].max()` in `src/app.py`:
the maximum of `routes_played` over ALL rows of the input table. -/
def league_lead_routes (wr : List WRRow) : ℚ :=
  seriesMax (wr.map (·.routes_played))

/-- The result row emitted by `src/app.py`'s `compute_model` for one scored
player, with the intermediate quantities of the computation retained. -/
structure ResultA where
  player : String
  team : String
  opponent : String
  route_share : ℚ
  base_yprr : ℚ
  adjusted_yprr : ℚ
  edge : ℚ
  blitz_ratio : ℚ
  blitz_component : ℚ
  safety_component : ℚ
  raw_edge_unclipped : ℚ
  raw_edge : ℚ
  edge_pre : ℚ
  penalty : ℚ

/-- The per-row scoring arithmetic of `src/app.py`'s `compute_model` (the
loop body after the eligibility checks have passed). -/
def mkResultA (lead : ℚ) (cfg : ConfigA) (row : WRRow) (defense : DefRow)
    (opp : String) : ResultA :=
  let base := row.base_yprr
  let route_share := row.routes_played / lead
  let man_ratio := row.yprr_man / base
  let zone_ratio := row.yprr_zone / base
  let onehigh_ratio := row.yprr_1high / base
  let twohigh_ratio := row.yprr_2high / base
  let zerohigh_ratio := row.yprr_0high / base
  let blitz_ratio := match row.yprr_blitz with
    | none => 1
    | some v => v / base
  let coverage_component := defense.man_pct * man_ratio + defense.zone_pct * zone_ratio
  let safety_component0 :=
    defense.onehigh_pct * onehigh_ratio +
    defense.twohigh_pct * twohigh_ratio +
    defense.zerohigh_pct * zerohigh_ratio
  let total_safety := defense.onehigh_pct + defense.twohigh_pct + defense.zerohigh_pct
  let safety_component :=
    if 0 < total_safety then safety_component0 / total_safety else safety_component0
  let coverage_safety_ratio := (coverage_component + safety_component) / 2
  let blitz_component := defense.blitz_pct * blitz_ratio + (1 - defense.blitz_pct) * 1
  let expected_ratio := (coverage_safety_ratio + blitz_component) / 2
  let adjusted_yprr := base * expected_ratio
  let raw_edge0 := (adjusted_yprr - base) / base
  let raw_edge := min (max raw_edge0 (-0.25)) 0.25
  let edge_pre := (raw_edge / 0.25) * 100
  let penalty := penaltyFor cfg.max_penalty cfg.exponent cfg.start_penalty cfg.end_penalty route_share
  let edge := edge_pre * (1 - penalty)
  { player := row.player, team := row.team, opponent := opp,
    route_share := route_share, base_yprr := base,
    adjusted_yprr := adjusted_yprr, edge := edge,
    blitz_ratio := blitz_ratio, blitz_component := blitz_component,
    safety_component := safety_component,
    raw_edge_unclipped := raw_edge0, raw_edge := raw_edge,
    edge_pre := edge_pre, penalty := penalty }

/-- One iteration of the scoring loop of `src/app.py`: the eligibility
checks (`continue` = `none`) followed by `mkResultA`. -/
def scoreRowA (lead : ℚ) (cfg : ConfigA) (defs : DefTable) (row : WRRow) :
    Option ResultA :=
  if row.base_yprr < 0.4 ∨ row.routes_played ≤ 0 then none
  else
    match row.opponent with
    | none => none
    | some opp =>
      match defs.lookup opp with
      | none => none
      | some defense => some (mkResultA lead cfg row defense opp)

/-- The list of scored rows of `src/app.py` (the `results` list). -/
def resultsA (wr : List WRRow) (defs : DefTable) (cfg : ConfigA) : List ResultA :=
  wr.filterMap (scoreRowA (league_lead_routes wr) cfg defs)

/-- The optional qualification filter of `src/app.py`:
`df = df[df["Route Share"] >= 0.35]` when the toggle is on. -/
def filteredA (wr : List WRRow) (defs : DefTable) (cfg : ConfigA)
    (qualified_toggle : Bool) : List ResultA :=
  if qualified_toggle then (resultsA wr defs cfg).filter (fun r => 0.35 ≤ r.route_share)
  else resultsA wr defs cfg

/-- `compute_model` of `src/app.py`: score, filter,
`sort_values("Edge", ascending=False)`, then `df["Rank"] = range(1, len(df)+1)`.
The output pairs each result row with its rank. -/
def compute_model_A (wr : List WRRow) (defs : DefTable) (cfg : ConfigA)
    (qualified_toggle : Bool) : List (ℕ × ResultA) :=
  let sorted := (filteredA wr defs cfg qualified_toggle).insertionSort
    (fun a b => b.edge ≤ a.edge)
  (List.range' 1 sorted.length).zip sorted

/-- Python's `round` (banker's rounding, half to even) on an exact rational.
(`src/Inputs/app.py` rounds the values it stores in its result rows; Python
rounds floats, whose binary representation can perturb exact .5 ties — the
decimal half-even rule is the documented intent.) -/
def roundHalfEven (q : ℚ) : ℤ :=
  let f := ⌊q⌋
  if q - f < 1 / 2 then f
  else if 1 / 2 < q - f then f + 1
  else if Even f then f else f + 1

/-- `round(q, n)` in Python, on an exact rational. -/
def pyRound (q : ℚ) (n : ℕ) : ℚ :=
  (roundHalfEven (q * 10 ^ n) : ℚ) / 10 ^ n

/-- `Series.mean()` over a defense column (pandas yields NaN on an empty
table; that value is never consumed since an empty defense table matches no
opponent, and `ℚ` division by zero returns 0 here). -/
def colMean (xs : List ℚ) : ℚ := xs.sum / xs.length

/-- The module-level league averages of `src/Inputs/app.py`, computed from
the defense table before `compute_model` runs. -/
structure LeagueAvgs where
  man : ℚ
  zone : ℚ
  onehigh : ℚ
  twohigh : ℚ
  zerohigh : ℚ

/-- `league_avg_man = def_df["man_pct"].mean()` and friends in
`src/Inputs/app.py`. -/
def leagueAvgsOf (defs : DefTable) : LeagueAvgs :=
  { man := colMean (defs.map (·.2.man_pct)),
    zone := colMean (defs.map (·.2.zone_pct)),
    onehigh := colMean (defs.map (·.2.onehigh_pct)),
    twohigh := colMean (defs.map (·.2.twohigh_pct)),
    zerohigh := colMean (defs.map (·.2.zerohigh_pct)) }

/-- The result row emitted by `src/Inputs/app.py`'s `compute_model` for one
scored player.  The `_disp` fields are the rounded values the source stores
in its output dict (`"Base YPRR": round(base, 2)` etc.); the unrounded
intermediates of the computation are retained alongside. -/
structure ResultB where
  player : String
  team : String
  opponent : String
  route_share : ℚ
  base_disp : ℚ
  adjusted_disp : ℚ
  matchup_disp : ℚ
  deviation_disp : ℚ
  edge_disp : ℚ
  base_yprr : ℚ
  adjusted_yprr : ℚ
  blitz_ratio : ℚ
  final_ratio : ℚ
  safety_component : ℚ
  raw_edge : ℚ
  edge_pre : ℚ
  penalty : ℚ
  edge : ℚ

/-- The per-row scoring arithmetic of `src/Inputs/app.py`'s `compute_model`
(the loop body after the eligibility checks have passed). -/
def mkResultB (avgs : LeagueAvgs) (cfg : ConfigB) (row : WRRow)
    (defense : DefRow) (opp : String) : ResultB :=
  let base := row.base_yprr
  let blitz_ratio := (match row.yprr_blitz with
    | none => base
    | some v => v) / base
  let man_ratio := row.yprr_man / base
  let zone_ratio := row.yprr_zone / base
  let onehigh_ratio := row.yprr_1high / base
  let twohigh_ratio := row.yprr_2high / base
  let zerohigh_ratio := row.yprr_0high / base
  let man_pct := defense.man_pct
  let zone_pct := defense.zone_pct
  let onehigh_pct := defense.onehigh_pct
  let twohigh_pct := defense.twohigh_pct
  let zerohigh_pct := defense.zerohigh_pct
  let coverage_component := man_pct * man_ratio + zone_pct * zone_ratio
  let total_coverage := man_pct + zone_pct
  let safety_component0 :=
    onehigh_pct * onehigh_ratio + twohigh_pct * twohigh_ratio +
    zerohigh_pct * zerohigh_ratio
  let total_safety := onehigh_pct + twohigh_pct + zerohigh_pct
  let safety_component :=
    if 0 < total_safety then safety_component0 / total_safety else safety_component0
  let systemA_ratio :=
    if 0 < total_coverage + total_safety then
      (coverage_component * total_coverage + safety_component * total_safety) /
        (total_coverage + total_safety)
    else (coverage_component + safety_component) / 2
  let coverage_dev := |man_pct - avgs.man| + |zone_pct - avgs.zone|
  let safety_dev :=
    |onehigh_pct - avgs.onehigh| + |twohigh_pct - avgs.twohigh| +
    |zerohigh_pct - avgs.zerohigh|
  let coverage_weight_dev :=
    if 0 < coverage_dev + safety_dev then coverage_dev / (coverage_dev + safety_dev)
    else 0.5
  let safety_weight_dev :=
    if 0 < coverage_dev + safety_dev then safety_dev / (coverage_dev + safety_dev)
    else 0.5
  let systemB_ratio :=
    coverage_component * coverage_weight_dev + safety_component * safety_weight_dev
  let final_ratio :=
    systemA_ratio * (1 - cfg.deviation_boost) + systemB_ratio * cfg.deviation_boost
  let adjusted_yprr := base * ((final_ratio + blitz_ratio) / 2)
  let raw_edge := (adjusted_yprr - base) / base
  let edge_pre := (raw_edge / 0.25) * 10
  let route_share := match row.route_share with
    | none => 0
    | some v => v
  let penalty := penaltyFor cfg.max_penalty cfg.exponent cfg.start_penalty cfg.end_penalty route_share
  let edge := edge_pre * (1 - penalty)
  { player := row.player, team := row.team, opponent := opp,
    route_share := route_share,
    base_disp := pyRound base 2, adjusted_disp := pyRound adjusted_yprr 2,
    matchup_disp := pyRound (edge * (1 - cfg.deviation_boost)) 1,
    deviation_disp := pyRound (edge * cfg.deviation_boost) 1,
    edge_disp := pyRound edge 1,
    base_yprr := base, adjusted_yprr := adjusted_yprr,
    blitz_ratio := blitz_ratio, final_ratio := final_ratio,
    safety_component := safety_component,
    raw_edge := raw_edge, edge_pre := edge_pre,
    penalty := penalty, edge := edge }

/-- One iteration of the scoring loop of `src/Inputs/app.py`: the
eligibility checks (`continue` = `none`) followed by `mkResultB`. -/
def scoreRowB (avgs : LeagueAvgs) (cfg : ConfigB) (defs : DefTable)
    (row : WRRow) : Option ResultB :=
  if row.base_yprr < 0.4 ∨ row.routes_played ≤ 0 then none
  else
    match row.opponent with
    | none => none
    | some opp =>
      match defs.lookup opp with
      | none => none
      | some defense => some (mkResultB avgs cfg row defense opp)

/-- The list of scored rows of `src/Inputs/app.py` (the `results` list);
the league averages are the module-level ones computed from the same
defense table. -/
def resultsB (wr : List WRRow) (defs : DefTable) (cfg : ConfigB) : List ResultB :=
  wr.filterMap (scoreRowB (leagueAvgsOf defs) cfg defs)

/-- The route-share filter toggles of `src/Inputs/app.py`
(`if qualified_toggle_35: ... elif qualified_toggle_20: ...`), on the
stored `"Route (%)"` value. -/
def filteredB (wr : List WRRow) (defs : DefTable) (cfg : ConfigB)
    (q35 q20 : Bool) : List ResultB :=
  if q35 then (resultsB wr defs cfg).filter (fun r => 35 ≤ r.route_share)
  else if q20 then (resultsB wr defs cfg).filter (fun r => 20 ≤ r.route_share)
  else resultsB wr defs cfg

/-- `compute_model` of `src/Inputs/app.py`: score, filter,
`df.reindex(df["Edge"].abs().sort_values(ascending=False).index)` (a
descending sort on the absolute value of the stored, rounded `"Edge"`
column), then `df["Rk"] = range(1, len(df)+1)`. -/
def compute_model_B (wr : List WRRow) (defs : DefTable) (cfg : ConfigB)
    (q35 q20 : Bool) : List (ℕ × ResultB) :=
  let sorted := (filteredB wr defs cfg q35 q20).insertionSort
    (fun a b => |b.edge_disp| ≤ |a.edge_disp|)
  (List.range' 1 sorted.length).zip sorted

/-- Division that signals a zero denominator (Python would raise
`ZeroDivisionError` / produce a float `inf`/`nan` there). -/
def divQ (a b : ℚ) : Option ℚ := if b = 0 then none else some (a / b)

/-- `penaltyFor` with its one division checked. -/
def penaltyForChecked (maxp : ℚ) (e : ℕ) (startp endp rs : ℚ) : Option ℚ :=
  if startp ≤ rs then some 0
  else if rs ≤ endp then some maxp
  else (divQ (startp - rs) (startp - endp)).map (fun t => maxp * t ^ e)

/-- The source's guarded safety renormalization, with the division checked:
divide only when the shell-rate sum is positive. -/
def safetyDivChecked (s0 ts : ℚ) : Option ℚ :=
  if 0 < ts then divQ s0 ts else some s0

/-- The `src/Inputs/app.py` system-A weighting with its two possible
divisions checked. -/
def systemADivChecked (num den alt : ℚ) : Option ℚ :=
  if 0 < den then divQ num den else divQ alt 2

/-- The `src/Inputs/app.py` deviation-weight computation with its division
checked (fallback weight 0.5). -/
def devWeightChecked (num den : ℚ) : Option ℚ :=
  if 0 < den then divQ num den else some 0.5

/-- `mkResultA` with every division checked by `divQ`: returns `none` iff
the Python loop body would hit a zero denominator. -/
def mkResultAChecked (lead : ℚ) (cfg : ConfigA) (row : WRRow) (defense : DefRow)
    (opp : String) : Option ResultA := do
  let base := row.base_yprr
  let route_share ← divQ row.routes_played lead
  let man_ratio ← divQ row.yprr_man base
  let zone_ratio ← divQ row.yprr_zone base
  let onehigh_ratio ← divQ row.yprr_1high base
  let twohigh_ratio ← divQ row.yprr_2high base
  let zerohigh_ratio ← divQ row.yprr_0high base
  let blitz_ratio ← match row.yprr_blitz with
    | none => some 1
    | some v => divQ v base
  let coverage_component := defense.man_pct * man_ratio + defense.zone_pct * zone_ratio
  let safety_component0 :=
    defense.onehigh_pct * onehigh_ratio +
    defense.twohigh_pct * twohigh_ratio +
    defense.zerohigh_pct * zerohigh_ratio
  let total_safety := defense.onehigh_pct + defense.twohigh_pct + defense.zerohigh_pct
  let safety_component ← safetyDivChecked safety_component0 total_safety
  let coverage_safety_ratio ← divQ (coverage_component + safety_component) 2
  let blitz_component := defense.blitz_pct * blitz_ratio + (1 - defense.blitz_pct) * 1
  let expected_ratio ← divQ (coverage_safety_ratio + blitz_component) 2
  let adjusted_yprr := base * expected_ratio
  let raw_edge0 ← divQ (adjusted_yprr - base) base
  let raw_edge := min (max raw_edge0 (-0.25)) 0.25
  let scaled ← divQ raw_edge 0.25
  let edge_pre := scaled * 100
  let penalty ← penaltyForChecked cfg.max_penalty cfg.exponent cfg.start_penalty cfg.end_penalty route_share
  let edge := edge_pre * (1 - penalty)
  some { player := row.player, team := row.team, opponent := opp,
         route_share := route_share, base_yprr := base,
         adjusted_yprr := adjusted_yprr, edge := edge,
         blitz_ratio := blitz_ratio, blitz_component := blitz_component,
         safety_component := safety_component,
         raw_edge_unclipped := raw_edge0, raw_edge := raw_edge,
         edge_pre := edge_pre, penalty := penalty }

/-- `mkResultB` with every division checked by `divQ`. -/
def mkResultBChecked (avgs : LeagueAvgs) (cfg : ConfigB) (row : WRRow)
    (defense : DefRow) (opp : String) : Option ResultB := do
  let base := row.base_yprr
  let blitz_ratio ← divQ (match row.yprr_blitz with
    | none => base
    | some v => v) base
  let man_ratio ← divQ row.yprr_man base
  let zone_ratio ← divQ row.yprr_zone base
  let onehigh_ratio ← divQ row.yprr_1high base
  let twohigh_ratio ← divQ row.yprr_2high base
  let zerohigh_ratio ← divQ row.yprr_0high base
  let man_pct := defense.man_pct
  let zone_pct := defense.zone_pct
  let onehigh_pct := defense.onehigh_pct
  let twohigh_pct := defense.twohigh_pct
  let zerohigh_pct := defense.zerohigh_pct
  let coverage_component := man_pct * man_ratio + zone_pct * zone_ratio
  let total_coverage := man_pct + zone_pct
  let safety_component0 :=
    onehigh_pct * onehigh_ratio + twohigh_pct * twohigh_ratio +
    zerohigh_pct * zerohigh_ratio
  let total_safety := onehigh_pct + twohigh_pct + zerohigh_pct
  let safety_component ← safetyDivChecked safety_component0 total_safety
  let systemA_ratio ← systemADivChecked
    (coverage_component * total_coverage + safety_component * total_safety)
    (total_coverage + total_safety) (coverage_component + safety_component)
  let coverage_dev := |man_pct - avgs.man| + |zone_pct - avgs.zone|
  let safety_dev :=
    |onehigh_pct - avgs.onehigh| + |twohigh_pct - avgs.twohigh| +
    |zerohigh_pct - avgs.zerohigh|
  let coverage_weight_dev ← devWeightChecked coverage_dev (coverage_dev + safety_dev)
  let safety_weight_dev ← devWeightChecked safety_dev (coverage_dev + safety_dev)
  let systemB_ratio :=
    coverage_component * coverage_weight_dev + safety_component * safety_weight_dev
  let final_ratio :=
    systemA_ratio * (1 - cfg.deviation_boost) + systemB_ratio * cfg.deviation_boost
  let halfsum ← divQ (final_ratio + blitz_ratio) 2
  let adjusted_yprr := base * halfsum
  let raw_edge ← divQ (adjusted_yprr - base) base
  let scaled ← divQ raw_edge 0.25
  let edge_pre := scaled * 10
  let route_share := match row.route_share with
    | none => 0
    | some v => v
  let penalty ← penaltyForChecked cfg.max_penalty cfg.exponent cfg.start_penalty cfg.end_penalty route_share
  let edge := edge_pre * (1 - penalty)
  some { player := row.player, team := row.team, opponent := opp,
         route_share := route_share,
         base_disp := pyRound base 2, adjusted_disp := pyRound adjusted_yprr 2,
         matchup_disp := pyRound (edge * (1 - cfg.deviation_boost)) 1,
         deviation_disp := pyRound (edge * cfg.deviation_boost) 1,
         edge_disp := pyRound edge 1,
         base_yprr := base, adjusted_yprr := adjusted_yprr,
         blitz_ratio := blitz_ratio, final_ratio := final_ratio,
         safety_component := safety_component,
         raw_edge := raw_edge, edge_pre := edge_pre,
         penalty := penalty, edge := edge }

/-- The eligibility predicate of the claims' wording — used only to compare
the claimed route-share denominator ("maximum over all ELIGIBLE players")
with the `league_lead_routes` the source actually uses. -/
def eligibleB (defs : DefTable) (row : WRRow) : Bool :=
  !(decide (row.base_yprr < 0.4)) && !(decide (row.routes_played ≤ 0)) &&
    (match row.opponent with
     | none => false
     | some opp => (defs.lookup opp).isSome)

/-- Modelled from the claim's words, for comparison with
`league_lead_routes`: the maximum `routes_played` over the eligible players
only. -/
def eligibleLeadRoutes (defs : DefTable) (wr : List WRRow) : ℚ :=
  seriesMax ((wr.filter (eligibleB defs)).map (·.routes_played))

/-!  Concrete fixtures used by witnesses and counterexamples. -/

/-- A one-team defense table: always man coverage, always one-high, never
blitzes. -/
def defKC : DefRow :=
  { man_pct := 1, zone_pct := 0, onehigh_pct := 1, twohigh_pct := 0,
    zerohigh_pct := 0, blitz_pct := 0 }

def defsKC : DefTable := [("KC", defKC)]

/-- A neutral player row against KC: every situational split equals the
base efficiency. -/
def rowNeutral : WRRow :=
  { player := "P", team := "T", opponent := some "KC",
    base_yprr := 1, routes_played := 100,
    yprr_man := 1, yprr_zone := 1, yprr_1high := 1, yprr_2high := 1,
    yprr_0high := 1, yprr_blitz := none, route_share := none }

/-- Mildly favourable matchup: edge score +10 under `src/app.py`. -/
def rowP1 : WRRow := { rowNeutral with player := "P1", yprr_man := 1.05, yprr_1high := 1.05 }

/-- Strongly unfavourable matchup: edge score −40 under `src/app.py`. -/
def rowP2 : WRRow := { rowNeutral with player := "P2", yprr_man := 0.8, yprr_1high := 0.8 }

/-- Ineligible row (base efficiency below 0.4) that nevertheless leads the
league in routes played. -/
def rowP3 : WRRow := { rowNeutral with player := "P3", base_yprr := 0.1, routes_played := 200 }

/-- Extreme favourable matchup (situational splits 10× the base):
`src/Inputs/app.py` produces a pre-penalty edge score of 180 from it. -/
def rowHot : WRRow := { rowNeutral with player := "P4", yprr_man := 10, yprr_1high := 10 }

/-- `rowP1` with a blitz-efficiency sample three times the base. -/
def rowBlitz3 : WRRow := { rowP1 with yprr_blitz := some 3 }

/-!  ### Helper lemmas -/

theorem divQ_of_ne {b : ℚ} (a : ℚ) (h : b ≠ 0) : divQ a b = some (a / b) := by
  simp [divQ, h]

theorem penaltyForChecked_eq (maxp : ℚ) (e : ℕ) (startp endp rs : ℚ) :
    penaltyForChecked maxp e startp endp rs =
      some (penaltyFor maxp e startp endp rs) := by
  unfold penaltyForChecked penaltyFor
  split_ifs with h1 h2
  · rfl
  · rfl
  · rw [divQ_of_ne]
    · rfl
    · have h1' : rs < startp := lt_of_not_le h1
      have h2' : endp < rs := lt_of_not_le h2
      have : 0 < startp - endp := by linarith
      exact ne_of_gt this

theorem scoreRowA_some_iff (lead : ℚ) (cfg : ConfigA) (defs : DefTable)
    (row : WRRow) (r : ResultA) :
    scoreRowA lead cfg defs row = some r ↔
      ∃ opp defense, ¬ row.base_yprr < 0.4 ∧ ¬ row.routes_played ≤ 0 ∧
        row.opponent = some opp ∧ defs.lookup opp = some defense ∧
        r = mkResultA lead cfg row defense opp := by
  rcases hopp : row.opponent with - | opp
  · simp [scoreRowA, hopp]
  · rcases hd : defs.lookup opp with - | defense
    · simp [scoreRowA, hopp, hd]
    · by_cases hel : row.base_yprr < 0.4 ∨ row.routes_played ≤ 0
      · simp only [scoreRowA, hopp, hd, if_pos hel]
        constructor
        · intro h; exact absurd h (by simp)
        · rintro ⟨o, d, hb, hr, -⟩
          rcases hel with h | h
          · exact absurd h hb
          · exact absurd h hr
      · push_neg at hel
        simp [scoreRowA, hopp, hd, not_lt, not_le, hel.1, hel.2, eq_comm,
          not_or, or_iff_not_imp_left]

theorem scoreRowB_some_iff (avgs : LeagueAvgs) (cfg : ConfigB) (defs : DefTable)
    (row : WRRow) (r : ResultB) :
    scoreRowB avgs cfg defs row = some r ↔
      ∃ opp defense, ¬ row.base_yprr < 0.4 ∧ ¬ row.routes_played ≤ 0 ∧
        row.opponent = some opp ∧ defs.lookup opp = some defense ∧
        r = mkResultB avgs cfg row defense opp := by
  rcases hopp : row.opponent with - | opp
  · simp [scoreRowB, hopp]
  · rcases hd : defs.lookup opp with - | defense
    · simp [scoreRowB, hopp, hd]
    · by_cases hel : row.base_yprr < 0.4 ∨ row.routes_played ≤ 0
      · simp only [scoreRowB, hopp, hd, if_pos hel]
        constructor
        · intro h; exact absurd h (by simp)
        · rintro ⟨o, d, hb, hr, -⟩
          rcases hel with h | h
          · exact absurd h hb
          · exact absurd h hr
      · push_neg at hel
        simp [scoreRowB, hopp, hd, not_lt, not_le, hel.1, hel.2, eq_comm,
          not_or, or_iff_not_imp_left]

theorem rankZip_map_fst {α : Type} (l : List α) :
    ((List.range' 1 l.length).zip l).map Prod.fst = List.range' 1 l.length :=
  List.map_fst_zip _ _ (by rw [List.length_range'])

theorem rankZip_map_snd {α : Type} (l : List α) :
    ((List.range' 1 l.length).zip l).map Prod.snd = l :=
  List.map_snd_zip _ _ (by rw [List.length_range'])

/-!  ### Claim theorems -/

/-- C1 counterexample: in the `src/Inputs/app.py` variant the raw edge is
NOT clamped and the pre-penalty edge score is scaled by ×10, not ×100.  The
concrete scored row `rowHot` has raw edge 9/2 (far outside [−0.25, 0.25])
and pre-penalty edge score 180 (outside [−100, 100]), while the claimed
formula `(clamped raw edge / 0.25) × 100` would give 100. -/
theorem edge_scale_cex :
    scoreRowB (leagueAvgsOf defsKC) {} defsKC rowHot =
      some (mkResultB (leagueAvgsOf defsKC) {} rowHot defKC "KC") ∧
    (mkResultB (leagueAvgsOf defsKC) {} rowHot defKC "KC").raw_edge = 9 / 2 ∧
    (mkResultB (leagueAvgsOf defsKC) {} rowHot defKC "KC").edge_pre = 180 ∧
    ¬ (mkResultB (leagueAvgsOf defsKC) {} rowHot defKC "KC").edge_pre ≤ 100 ∧
    ¬ (mkResultB (leagueAvgsOf defsKC) {} rowHot defKC "KC").raw_edge ≤ 0.25 ∧
    (min (max ((9 : ℚ) / 2) (-0.25)) 0.25 / 0.25) * 100 = 100 := by
  refine ⟨by norm_num [scoreRowB, rowHot, rowNeutral, defsKC, List.lookup], ?_⟩
  norm_num [mkResultB, leagueAvgsOf, colMean, defsKC, defKC, rowHot, rowNeutral]

/-- C1 (amended): in `src/app.py` the raw edge is clamped to [−0.25, 0.25]
before scaling and the pre-penalty edge score `(raw_edge / 0.25) × 100` lies
in [−100, 100]; in `src/Inputs/app.py` there is no clamp and the pre-penalty
edge score is `(raw_edge / 0.25) × 10`, which is unbounded. -/
theorem edge_clamp_scale (lead : ℚ) (cfgA : ConfigA) (cfgB : ConfigB)
    (avgs : LeagueAvgs) (rowA rowB : WRRow) (dA dB : DefRow) (oA oB : String) :
    ((mkResultA lead cfgA rowA dA oA).raw_edge =
        min (max (mkResultA lead cfgA rowA dA oA).raw_edge_unclipped (-0.25)) 0.25) ∧
    (-0.25 ≤ (mkResultA lead cfgA rowA dA oA).raw_edge ∧
      (mkResultA lead cfgA rowA dA oA).raw_edge ≤ 0.25) ∧
    ((mkResultA lead cfgA rowA dA oA).edge_pre =
        ((mkResultA lead cfgA rowA dA oA).raw_edge / 0.25) * 100) ∧
    (-100 ≤ (mkResultA lead cfgA rowA dA oA).edge_pre ∧
      (mkResultA lead cfgA rowA dA oA).edge_pre ≤ 100) ∧
    ((mkResultB avgs cfgB rowB dB oB).edge_pre =
        ((mkResultB avgs cfgB rowB dB oB).raw_edge / 0.25) * 10) := by
  have hre : (mkResultA lead cfgA rowA dA oA).raw_edge =
      min (max (mkResultA lead cfgA rowA dA oA).raw_edge_unclipped (-0.25)) 0.25 := rfl
  have h1 : (mkResultA lead cfgA rowA dA oA).raw_edge ≤ 0.25 := by
    rw [hre]; exact min_le_right _ _
  have h2 : -0.25 ≤ (mkResultA lead cfgA rowA dA oA).raw_edge := by
    rw [hre]; exact le_min (le_max_right _ _) (by norm_num)
  have hpre : (mkResultA lead cfgA rowA dA oA).edge_pre =
      ((mkResultA lead cfgA rowA dA oA).raw_edge / 0.25) * 100 := rfl
  have hval : ((mkResultA lead cfgA rowA dA oA).raw_edge / 0.25) * 100 =
      (mkResultA lead cfgA rowA dA oA).raw_edge * 400 := by ring
  refine ⟨hre, ⟨h2, h1⟩, hpre, ⟨?_, ?_⟩, rfl⟩
  · rw [hpre, hval]; linarith
  · rw [hpre, hval]; linarith

/-- C2 counterexample: `src/app.py` sorts by descending SIGNED edge score,
not by descending absolute edge score.  On a two-player table with edge
scores +10 and −40, rank 1 goes to the +10 row even though |+10| < |−40|. -/
theorem ranking_order_cex :
    (compute_model_A [rowP1, rowP2] defsKC {} false).map
        (fun p => (p.1, p.2.edge)) = [(1, 10), (2, -40)] ∧
    |(10 : ℚ)| < |(-40 : ℚ)| := by
  constructor
  · norm_num [compute_model_A, filteredA, resultsA, scoreRowA, mkResultA, penaltyFor,
      league_lead_routes, seriesMax, defsKC, defKC, rowP1, rowP2, rowNeutral,
      List.insertionSort, List.orderedInsert, List.filterMap, List.lookup,
      List.range', List.zip, List.zipWith, List.map]
  · norm_num

/-- C2 (amended): in both variants the ranks are assigned densely as 1..M
with no duplicates, where M is the number of rows remaining after the
route-share qualification filter; the rows are sorted by descending SIGNED
edge score in `src/app.py` and by descending ABSOLUTE (rounded) edge score
in `src/Inputs/app.py` (the order of tied rows is implementation-defined in
pandas' default quicksort and is modelled here as stable input order). -/
theorem ranking_dense_sorted (wr : List WRRow) (defs : DefTable)
    (cfgA : ConfigA) (cfgB : ConfigB) (qA q35 q20 : Bool) :
    ((compute_model_A wr defs cfgA qA).map Prod.fst =
        List.range' 1 (filteredA wr defs cfgA qA).length) ∧
    ((compute_model_A wr defs cfgA qA).map Prod.fst).Nodup ∧
    ((compute_model_A wr defs cfgA qA).map Prod.snd).Pairwise
      (fun a b => b.edge ≤ a.edge) ∧
    ((compute_model_B wr defs cfgB q35 q20).map Prod.fst =
        List.range' 1 (filteredB wr defs cfgB q35 q20).length) ∧
    ((compute_model_B wr defs cfgB q35 q20).map Prod.fst).Nodup ∧
    ((compute_model_B wr defs cfgB q35 q20).map Prod.snd).Pairwise
      (fun a b => |b.edge_disp| ≤ |a.edge_disp|) := by
  haveI iTA : IsTotal ResultA (fun a b => b.edge ≤ a.edge) :=
    ⟨fun a b => le_total b.edge a.edge⟩
  haveI iRA : IsTrans ResultA (fun a b => b.edge ≤ a.edge) :=
    ⟨fun _ _ _ h1 h2 => le_trans h2 h1⟩
  haveI iTB : IsTotal ResultB (fun a b => |b.edge_disp| ≤ |a.edge_disp|) :=
    ⟨fun a b => le_total |b.edge_disp| |a.edge_disp|⟩
  haveI iRB : IsTrans ResultB (fun a b => |b.edge_disp| ≤ |a.edge_disp|) :=
    ⟨fun _ _ _ h1 h2 => le_trans h2 h1⟩
  have lenA : ((filteredA wr defs cfgA qA).insertionSort
      (fun a b => b.edge ≤ a.edge)).length = (filteredA wr defs cfgA qA).length :=
    List.length_insertionSort _ _
  have lenB : ((filteredB wr defs cfgB q35 q20).insertionSort
      (fun a b => |b.edge_disp| ≤ |a.edge_disp|)).length =
      (filteredB wr defs cfgB q35 q20).length :=
    List.length_insertionSort _ _
  have fstA : (compute_model_A wr defs cfgA qA).map Prod.fst =
      List.range' 1 (filteredA wr defs cfgA qA).length := by
    show (((List.range' 1 _).zip _).map Prod.fst) = _
    rw [rankZip_map_fst, lenA]
  have fstB : (compute_model_B wr defs cfgB q35 q20).map Prod.fst =
      List.range' 1 (filteredB wr defs cfgB q35 q20).length := by
    show (((List.range' 1 _).zip _).map Prod.fst) = _
    rw [rankZip_map_fst, lenB]
  refine ⟨fstA, ?_, ?_, fstB, ?_, ?_⟩
  · rw [fstA]; exact List.nodup_range' ..
  · show (((List.range' 1 _).zip _).map Prod.snd).Pairwise _
    rw [rankZip_map_snd]
    exact List.sorted_insertionSort _ _
  · rw [fstB]; exact List.nodup_range' ..
  · show (((List.range' 1 _).zip _).map Prod.snd).Pairwise _
    rw [rankZip_map_snd]
    exact List.sorted_insertionSort _ _

/-- C3 counterexample: in `src/Inputs/app.py` there is no
`blitz_rate`-weighted blitz component at all — the blitz ratio is averaged
directly into the expected ratio — so against `defKC`, whose blitz rate is
0, a player's blitz efficiency still changes the adjusted YPRR
(81/40 with `yprr_blitz = 3` versus 41/40 without a blitz sample). -/
theorem blitz_weighting_cex :
    defKC.blitz_pct = 0 ∧
    rowBlitz3 = { rowP1 with yprr_blitz := some 3 } ∧
    (mkResultB (leagueAvgsOf defsKC) {} rowBlitz3 defKC "KC").adjusted_yprr = 81 / 40 ∧
    (mkResultB (leagueAvgsOf defsKC) {} rowP1 defKC "KC").adjusted_yprr = 41 / 40 ∧
    (81 : ℚ) / 40 ≠ 41 / 40 := by
  refine ⟨rfl, rfl, ?_, ?_, by norm_num⟩ <;>
  norm_num [mkResultB, leagueAvgsOf, colMean, defsKC, defKC, rowBlitz3, rowP1, rowNeutral]

/-- C3 (amended): in `src/app.py` the blitz component equals
`blitz_rate × blitz_ratio + (1 − blitz_rate) × 1.0` and the adjusted YPRR is
independent of the player's blitz efficiency whenever the opponent's blitz
rate is 0; in `src/Inputs/app.py` the blitz ratio is blended directly,
`adjusted_yprr = base × ((final_ratio + blitz_ratio) / 2)`, regardless of
the opponent's blitz rate. -/
theorem blitz_component_spec (lead : ℚ) (cfgA : ConfigA) (cfgB : ConfigB)
    (avgs : LeagueAvgs) (rowA rowB : WRRow) (dA dB : DefRow) (oA oB : String) :
    ((mkResultA lead cfgA rowA dA oA).blitz_component =
        dA.blitz_pct * (mkResultA lead cfgA rowA dA oA).blitz_ratio +
          (1 - dA.blitz_pct) * 1) ∧
    (dA.blitz_pct = 0 → ∀ b : Option ℚ,
      (mkResultA lead cfgA { rowA with yprr_blitz := b } dA oA).adjusted_yprr =
        (mkResultA lead cfgA rowA dA oA).adjusted_yprr) ∧
    ((mkResultB avgs cfgB rowB dB oB).adjusted_yprr =
        rowB.base_yprr * (((mkResultB avgs cfgB rowB dB oB).final_ratio +
          (mkResultB avgs cfgB rowB dB oB).blitz_ratio) / 2)) := by
  refine ⟨rfl, ?_, rfl⟩
  intro hblitz b
  simp only [mkResultA, hblitz]
  ring

/-- Witness for `blitz_component_spec`: at blitz rate 0 (`defKC`), replacing
`rowP1`'s missing blitz sample by the value 3 leaves the `src/app.py`
adjusted YPRR unchanged. -/
theorem blitz_component_spec_witness :
    defKC.blitz_pct = 0 ∧
    (mkResultA 100 {} { rowP1 with yprr_blitz := some 3 } defKC "KC").adjusted_yprr =
      (mkResultA 100 {} rowP1 defKC "KC").adjusted_yprr :=
  ⟨rfl, (blitz_component_spec 100 {} {} (leagueAvgsOf defsKC) rowP1 rowP1
    defKC defKC "KC" "KC").2.1 rfl (some 3)⟩

theorem penaltyFor_of_start_le {startp rs : ℚ} (maxp : ℚ) (e : ℕ) (endp : ℚ)
    (h : startp ≤ rs) : penaltyFor maxp e startp endp rs = 0 := by
  rw [penaltyFor, if_pos h]

theorem penaltyFor_of_le_end {startp endp rs : ℚ} (maxp : ℚ) (e : ℕ)
    (h1 : ¬ startp ≤ rs) (h2 : rs ≤ endp) : penaltyFor maxp e startp endp rs = maxp := by
  rw [penaltyFor, if_neg h1, if_pos h2]

theorem penaltyFor_of_mid {startp endp rs : ℚ} (maxp : ℚ) (e : ℕ)
    (h1 : endp < rs) (h2 : rs < startp) :
    penaltyFor maxp e startp endp rs =
      maxp * ((startp - rs) / (startp - endp)) ^ e := by
  rw [penaltyFor, if_neg (not_le.mpr h2), if_neg (not_le.mpr h1)]

/-- C4: in both variants the route-share penalty is the piecewise function
(0 at or above `start_penalty`, `max_penalty` at or below `end_penalty`,
the convex ramp in between), it is applied to the edge score only, as
`edge_score × (1 − penalty)`; a row at or below `end_penalty` gets exactly
`edge_pre × (1 − max_penalty)` and a row at or above `start_penalty` keeps
its edge score unmodified. -/
theorem route_share_penalty_spec (lead : ℚ) (cfgA : ConfigA) (cfgB : ConfigB)
    (avgs : LeagueAvgs) (rowA rowB : WRRow) (dA dB : DefRow) (oA oB : String) :
    ((mkResultA lead cfgA rowA dA oA).penalty =
        penaltyFor cfgA.max_penalty cfgA.exponent cfgA.start_penalty
          cfgA.end_penalty (mkResultA lead cfgA rowA dA oA).route_share) ∧
    ((mkResultA lead cfgA rowA dA oA).edge =
        (mkResultA lead cfgA rowA dA oA).edge_pre *
          (1 - (mkResultA lead cfgA rowA dA oA).penalty)) ∧
    ((mkResultB avgs cfgB rowB dB oB).penalty =
        penaltyFor cfgB.max_penalty cfgB.exponent cfgB.start_penalty
          cfgB.end_penalty (mkResultB avgs cfgB rowB dB oB).route_share) ∧
    ((mkResultB avgs cfgB rowB dB oB).edge =
        (mkResultB avgs cfgB rowB dB oB).edge_pre *
          (1 - (mkResultB avgs cfgB rowB dB oB).penalty)) ∧
    (cfgA.end_penalty < cfgA.start_penalty →
      (mkResultA lead cfgA rowA dA oA).route_share ≤ cfgA.end_penalty →
      (mkResultA lead cfgA rowA dA oA).edge =
        (mkResultA lead cfgA rowA dA oA).edge_pre * (1 - cfgA.max_penalty)) ∧
    (cfgA.start_penalty ≤ (mkResultA lead cfgA rowA dA oA).route_share →
      (mkResultA lead cfgA rowA dA oA).edge =
        (mkResultA lead cfgA rowA dA oA).edge_pre) ∧
    (cfgB.end_penalty < cfgB.start_penalty →
      (mkResultB avgs cfgB rowB dB oB).route_share ≤ cfgB.end_penalty →
      (mkResultB avgs cfgB rowB dB oB).edge =
        (mkResultB avgs cfgB rowB dB oB).edge_pre * (1 - cfgB.max_penalty)) ∧
    (cfgB.start_penalty ≤ (mkResultB avgs cfgB rowB dB oB).route_share →
      (mkResultB avgs cfgB rowB dB oB).edge =
        (mkResultB avgs cfgB rowB dB oB).edge_pre) := by
  have hpA : (mkResultA lead cfgA rowA dA oA).penalty =
      penaltyFor cfgA.max_penalty cfgA.exponent cfgA.start_penalty
        cfgA.end_penalty (mkResultA lead cfgA rowA dA oA).route_share := rfl
  have heA : (mkResultA lead cfgA rowA dA oA).edge =
      (mkResultA lead cfgA rowA dA oA).edge_pre *
        (1 - (mkResultA lead cfgA rowA dA oA).penalty) := rfl
  have hpB : (mkResultB avgs cfgB rowB dB oB).penalty =
      penaltyFor cfgB.max_penalty cfgB.exponent cfgB.start_penalty
        cfgB.end_penalty (mkResultB avgs cfgB rowB dB oB).route_share := rfl
  have heB : (mkResultB avgs cfgB rowB dB oB).edge =
      (mkResultB avgs cfgB rowB dB oB).edge_pre *
        (1 - (mkResultB avgs cfgB rowB dB oB).penalty) := rfl
  refine ⟨hpA, heA, hpB, heB, ?_, ?_, ?_, ?_⟩
  · intro hlt hle
    rw [heA, hpA, penaltyFor_of_le_end _ _ (not_le.mpr (lt_of_le_of_lt hle hlt)) hle]
  · intro hge
    rw [heA, hpA, penaltyFor_of_start_le _ _ _ hge]
    ring
  · intro hlt hle
    rw [heB, hpB, penaltyFor_of_le_end _ _ (not_le.mpr (lt_of_le_of_lt hle hlt)) hle]
  · intro hge
    rw [heB, hpB, penaltyFor_of_start_le _ _ _ hge]
    ring

/-- Witness for `route_share_penalty_spec`: under the default configurations,
a `src/app.py` row at route share 0.04 (≤ 0.05) gets its edge multiplied by
exactly `1 − 0.8`, a row at route share 1 (≥ 0.5) keeps its edge; a
`src/Inputs/app.py` row at route share 0 gets `× (1 − 0.6)` and one at
route share 50 (≥ 30) keeps its edge. -/
theorem route_share_penalty_spec_witness :
    ((mkResultA 100 {} { rowP1 with routes_played := 4 } defKC "KC").edge =
        (mkResultA 100 {} { rowP1 with routes_played := 4 } defKC "KC").edge_pre *
          (1 - ({} : ConfigA).max_penalty)) ∧
    ((mkResultA 100 {} rowP1 defKC "KC").edge =
        (mkResultA 100 {} rowP1 defKC "KC").edge_pre) ∧
    ((mkResultB (leagueAvgsOf defsKC) {} rowP1 defKC "KC").edge =
        (mkResultB (leagueAvgsOf defsKC) {} rowP1 defKC "KC").edge_pre *
          (1 - ({} : ConfigB).max_penalty)) ∧
    ((mkResultB (leagueAvgsOf defsKC) {} { rowP1 with route_share := some 50 }
        defKC "KC").edge =
      (mkResultB (leagueAvgsOf defsKC) {} { rowP1 with route_share := some 50 }
        defKC "KC").edge_pre) := by
  refine ⟨?_, ?_, ?_, ?_⟩
  · exact (route_share_penalty_spec 100 {} {} (leagueAvgsOf defsKC)
      { rowP1 with routes_played := 4 } rowP1 defKC defKC "KC" "KC").2.2.2.2.1
      (by norm_num) (by norm_num [mkResultA, rowP1, rowNeutral])
  · exact (route_share_penalty_spec 100 {} {} (leagueAvgsOf defsKC)
      rowP1 rowP1 defKC defKC "KC" "KC").2.2.2.2.2.1
      (by norm_num [mkResultA, rowP1, rowNeutral])
  · exact (route_share_penalty_spec 100 {} {} (leagueAvgsOf defsKC)
      rowP1 rowP1 defKC defKC "KC" "KC").2.2.2.2.2.2.1
      (by norm_num) (by norm_num [mkResultB, rowP1, rowNeutral])
  · exact (route_share_penalty_spec 100 {} {} (leagueAvgsOf defsKC)
      rowP1 { rowP1 with route_share := some 50 } defKC defKC "KC" "KC").2.2.2.2.2.2.2
      (by norm_num [mkResultB, rowP1, rowNeutral])

/-- C5: in both variants, for every scored row whose blitz efficiency is
null/missing, the blitz ratio used in the blend is exactly 1.0. -/
theorem blitz_default_ratio (lead : ℚ) (cfgA : ConfigA) (cfgB : ConfigB)
    (avgs : LeagueAvgs) (defsA defsB : DefTable) (rowA rowB : WRRow)
    (ra : ResultA) (rb : ResultB)
    (hA : scoreRowA lead cfgA defsA rowA = some ra) (hnA : rowA.yprr_blitz = none)
    (hB : scoreRowB avgs cfgB defsB rowB = some rb) (hnB : rowB.yprr_blitz = none) :
    ra.blitz_ratio = 1 ∧ rb.blitz_ratio = 1 := by
  obtain ⟨oppA, dA, -, -, -, -, rfl⟩ := (scoreRowA_some_iff _ _ _ _ _).mp hA
  obtain ⟨oppB, dB, hbB, -, -, -, rfl⟩ := (scoreRowB_some_iff _ _ _ _ _).mp hB
  constructor
  · simp [mkResultA, hnA]
  · have hb0 : rowB.base_yprr ≠ 0 := by
      intro h
      rw [h] at hbB
      exact hbB (by norm_num)
    simp [mkResultB, hnB, div_self hb0]

/-- Witness for `blitz_default_ratio`: `rowP1` has no blitz sample and is
scored by both variants with blitz ratio exactly 1. -/
theorem blitz_default_ratio_witness :
    (mkResultA 100 {} rowP1 defKC "KC").blitz_ratio = 1 ∧
    (mkResultB (leagueAvgsOf defsKC) {} rowP1 defKC "KC").blitz_ratio = 1 :=
  blitz_default_ratio 100 {} {} (leagueAvgsOf defsKC) defsKC defsKC rowP1 rowP1
    _ _ (by norm_num [scoreRowA, rowP1, rowNeutral, defsKC, List.lookup]) rfl
    (by norm_num [scoreRowB, rowP1, rowNeutral, defsKC, List.lookup]) rfl

theorem penaltyFor_bounds {maxp : ℚ} (e : ℕ) (startp endp rs : ℚ)
    (h0 : 0 ≤ maxp) :
    0 ≤ penaltyFor maxp e startp endp rs ∧ penaltyFor maxp e startp endp rs ≤ maxp := by
  unfold penaltyFor
  split_ifs with h1 h2
  · exact ⟨le_refl 0, h0⟩
  · exact ⟨h0, le_refl maxp⟩
  · push_neg at h1 h2
    have hd : 0 < startp - endp := by linarith
    have htn : 0 ≤ (startp - rs) / (startp - endp) :=
      div_nonneg (by linarith) (le_of_lt hd)
    have ht1 : (startp - rs) / (startp - endp) ≤ 1 := by
      rw [div_le_one hd]; linarith
    constructor
    · exact mul_nonneg h0 (pow_nonneg htn e)
    · calc maxp * ((startp - rs) / (startp - endp)) ^ e
          ≤ maxp * 1 := mul_le_mul_of_nonneg_left (pow_le_one₀ htn ht1) h0
        _ = maxp := mul_one maxp

/-- C9: in both variants, when `0 ≤ max_penalty < 1` (as in the default
configurations), the penalty factor `1 − penalty` lies in
`[1 − max_penalty, 1]`, so the final edge score has the same sign as the
pre-penalty edge score and never exceeds it in absolute value. -/
theorem penalty_factor_bounds (lead : ℚ) (cfgA : ConfigA) (cfgB : ConfigB)
    (avgs : LeagueAvgs) (rowA rowB : WRRow) (dA dB : DefRow) (oA oB : String)
    (h0A : 0 ≤ cfgA.max_penalty) (h1A : cfgA.max_penalty < 1)
    (h0B : 0 ≤ cfgB.max_penalty) (h1B : cfgB.max_penalty < 1) :
    (1 - cfgA.max_penalty ≤ 1 - (mkResultA lead cfgA rowA dA oA).penalty ∧
      1 - (mkResultA lead cfgA rowA dA oA).penalty ≤ 1) ∧
    |(mkResultA lead cfgA rowA dA oA).edge| ≤
      |(mkResultA lead cfgA rowA dA oA).edge_pre| ∧
    (0 < (mkResultA lead cfgA rowA dA oA).edge_pre →
      0 < (mkResultA lead cfgA rowA dA oA).edge) ∧
    ((mkResultA lead cfgA rowA dA oA).edge_pre < 0 →
      (mkResultA lead cfgA rowA dA oA).edge < 0) ∧
    ((mkResultA lead cfgA rowA dA oA).edge_pre = 0 →
      (mkResultA lead cfgA rowA dA oA).edge = 0) ∧
    (1 - cfgB.max_penalty ≤ 1 - (mkResultB avgs cfgB rowB dB oB).penalty ∧
      1 - (mkResultB avgs cfgB rowB dB oB).penalty ≤ 1) ∧
    |(mkResultB avgs cfgB rowB dB oB).edge| ≤
      |(mkResultB avgs cfgB rowB dB oB).edge_pre| ∧
    (0 < (mkResultB avgs cfgB rowB dB oB).edge_pre →
      0 < (mkResultB avgs cfgB rowB dB oB).edge) ∧
    ((mkResultB avgs cfgB rowB dB oB).edge_pre < 0 →
      (mkResultB avgs cfgB rowB dB oB).edge < 0) ∧
    ((mkResultB avgs cfgB rowB dB oB).edge_pre = 0 →
      (mkResultB avgs cfgB rowB dB oB).edge = 0) := by
  have hbA := penaltyFor_bounds cfgA.exponent cfgA.start_penalty cfgA.end_penalty
    (mkResultA lead cfgA rowA dA oA).route_share h0A
  have hbB := penaltyFor_bounds cfgB.exponent cfgB.start_penalty cfgB.end_penalty
    (mkResultB avgs cfgB rowB dB oB).route_share h0B
  have hpA : (mkResultA lead cfgA rowA dA oA).penalty =
      penaltyFor cfgA.max_penalty cfgA.exponent cfgA.start_penalty
        cfgA.end_penalty (mkResultA lead cfgA rowA dA oA).route_share := rfl
  have hpB : (mkResultB avgs cfgB rowB dB oB).penalty =
      penaltyFor cfgB.max_penalty cfgB.exponent cfgB.start_penalty
        cfgB.end_penalty (mkResultB avgs cfgB rowB dB oB).route_share := rfl
  have heA : (mkResultA lead cfgA rowA dA oA).edge =
      (mkResultA lead cfgA rowA dA oA).edge_pre *
        (1 - (mkResultA lead cfgA rowA dA oA).penalty) := rfl
  have heB : (mkResultB avgs cfgB rowB dB oB).edge =
      (mkResultB avgs cfgB rowB dB oB).edge_pre *
        (1 - (mkResultB avgs cfgB rowB dB oB).penalty) := rfl
  rw [hpA] at heA
  rw [hpB] at heB
  have hfA0 : 0 < 1 - penaltyFor cfgA.max_penalty cfgA.exponent cfgA.start_penalty
      cfgA.end_penalty (mkResultA lead cfgA rowA dA oA).route_share := by
    have := hbA.2; linarith
  have hfA1 : 1 - penaltyFor cfgA.max_penalty cfgA.exponent cfgA.start_penalty
      cfgA.end_penalty (mkResultA lead cfgA rowA dA oA).route_share ≤ 1 := by
    have := hbA.1; linarith
  have hfB0 : 0 < 1 - penaltyFor cfgB.max_penalty cfgB.exponent cfgB.start_penalty
      cfgB.end_penalty (mkResultB avgs cfgB rowB dB oB).route_share := by
    have := hbB.2; linarith
  have hfB1 : 1 - penaltyFor cfgB.max_penalty cfgB.exponent cfgB.start_penalty
      cfgB.end_penalty (mkResultB avgs cfgB rowB dB oB).route_share ≤ 1 := by
    have := hbB.1; linarith
  refine ⟨⟨by rw [hpA]; have := hbA.2; linarith, by rw [hpA]; have := hbA.1; linarith⟩,
    ?_, ?_, ?_, ?_,
    ⟨by rw [hpB]; have := hbB.2; linarith, by rw [hpB]; have := hbB.1; linarith⟩,
    ?_, ?_, ?_, ?_⟩
  · rw [heA, abs_mul, abs_of_pos hfA0]
    calc |(mkResultA lead cfgA rowA dA oA).edge_pre| *
          (1 - penaltyFor cfgA.max_penalty cfgA.exponent cfgA.start_penalty
            cfgA.end_penalty (mkResultA lead cfgA rowA dA oA).route_share)
        ≤ |(mkResultA lead cfgA rowA dA oA).edge_pre| * 1 :=
          mul_le_mul_of_nonneg_left hfA1 (abs_nonneg _)
      _ = |(mkResultA lead cfgA rowA dA oA).edge_pre| := mul_one _
  · intro h; rw [heA]; exact mul_pos h hfA0
  · intro h; rw [heA]; exact mul_neg_of_neg_of_pos h hfA0
  · intro h; rw [heA, h, zero_mul]
  · rw [heB, abs_mul, abs_of_pos hfB0]
    calc |(mkResultB avgs cfgB rowB dB oB).edge_pre| *
          (1 - penaltyFor cfgB.max_penalty cfgB.exponent cfgB.start_penalty
            cfgB.end_penalty (mkResultB avgs cfgB rowB dB oB).route_share)
        ≤ |(mkResultB avgs cfgB rowB dB oB).edge_pre| * 1 :=
          mul_le_mul_of_nonneg_left hfB1 (abs_nonneg _)
      _ = |(mkResultB avgs cfgB rowB dB oB).edge_pre| := mul_one _
  · intro h; rw [heB]; exact mul_pos h hfB0
  · intro h; rw [heB]; exact mul_neg_of_neg_of_pos h hfB0
  · intro h; rw [heB, h, zero_mul]

/-- Witness for `penalty_factor_bounds`: at the default configurations and
the concrete row `rowP1`, the final edge never exceeds the pre-penalty edge
in absolute value. -/
theorem penalty_factor_bounds_witness :
    |(mkResultA 100 {} rowP1 defKC "KC").edge| ≤
      |(mkResultA 100 {} rowP1 defKC "KC").edge_pre| ∧
    |(mkResultB (leagueAvgsOf defsKC) {} rowP1 defKC "KC").edge| ≤
      |(mkResultB (leagueAvgsOf defsKC) {} rowP1 defKC "KC").edge_pre| := by
  have h := penalty_factor_bounds 100 {} {} (leagueAvgsOf defsKC) rowP1 rowP1
    defKC defKC "KC" "KC" (by norm_num) (by norm_num) (by norm_num) (by norm_num)
  exact ⟨h.2.1, h.2.2.2.2.2.2.1⟩

theorem lookup_mem {l : DefTable} {a : String} {b : DefRow}
    (h : l.lookup a = some b) : (a, b) ∈ l := by
  induction l with
  | nil => simp [List.lookup] at h
  | cons x xs ih =>
    obtain ⟨k, v⟩ := x
    rcases hak : (a == k) with - | -
    · simp only [List.lookup, hak] at h
      exact List.mem_cons_of_mem _ (ih h)
    · simp only [List.lookup, hak] at h
      obtain rfl : a = k := by simpa using hak
      obtain rfl : v = b := by simpa using h
      exact List.mem_cons_self _ _

/-- C7: in both variants a row with base efficiency < 0.4, or routes ≤ 0,
or a missing opponent, or an opponent absent from the defense table, is
silently skipped (no result row, no error), and those are the only rows
skipped: a row is scored iff it passes all three checks. -/
theorem eligibility_filter_spec (lead : ℚ) (cfgA : ConfigA) (cfgB : ConfigB)
    (avgs : LeagueAvgs) (defs : DefTable) (row : WRRow) :
    (scoreRowA lead cfgA defs row = none ↔
      row.base_yprr < 0.4 ∨ row.routes_played ≤ 0 ∨ row.opponent = none ∨
        ∃ opp, row.opponent = some opp ∧ defs.lookup opp = none) ∧
    (scoreRowB avgs cfgB defs row = none ↔
      row.base_yprr < 0.4 ∨ row.routes_played ≤ 0 ∨ row.opponent = none ∨
        ∃ opp, row.opponent = some opp ∧ defs.lookup opp = none) := by
  constructor
  · rcases hopp : row.opponent with - | opp
    · simp [scoreRowA, hopp, ite_self]
    · rcases hd : defs.lookup opp with - | defense
      · simp only [scoreRowA, hopp, hd, ite_self]
        refine iff_of_true trivial ?_
        exact Or.inr (Or.inr (Or.inr ⟨opp, rfl, hd⟩))
      · by_cases hel : row.base_yprr < 0.4 ∨ row.routes_played ≤ 0
        · refine iff_of_true ?_ (by tauto)
          simp [scoreRowA, hel]
        · push_neg at hel
          simp only [scoreRowA, hopp, hd]
          rw [if_neg (by push_neg; exact hel)]
          constructor
          · intro hc; exact absurd hc (by simp)
          · rintro (hc | hc | hc | ⟨o, ho, hl⟩)
            · exact absurd hc hel.1.not_lt
            · exact absurd hc hel.2.not_le
            · exact absurd hc (by simp)
            · obtain rfl : opp = o := by injection ho
              rw [hd] at hl; exact absurd hl (by simp)
  · rcases hopp : row.opponent with - | opp
    · simp [scoreRowB, hopp, ite_self]
    · rcases hd : defs.lookup opp with - | defense
      · simp only [scoreRowB, hopp, hd, ite_self]
        refine iff_of_true trivial ?_
        exact Or.inr (Or.inr (Or.inr ⟨opp, rfl, hd⟩))
      · by_cases hel : row.base_yprr < 0.4 ∨ row.routes_played ≤ 0
        · refine iff_of_true ?_ (by tauto)
          simp [scoreRowB, hel]
        · push_neg at hel
          simp only [scoreRowB, hopp, hd]
          rw [if_neg (by push_neg; exact hel)]
          constructor
          · intro hc; exact absurd hc (by simp)
          · rintro (hc | hc | hc | ⟨o, ho, hl⟩)
            · exact absurd hc hel.1.not_lt
            · exact absurd hc hel.2.not_le
            · exact absurd hc (by simp)
            · obtain rfl : opp = o := by injection ho
              rw [hd] at hl; exact absurd hl (by simp)

/-- C10: in `src/Inputs/app.py` (default configuration), a scored row whose
`route_share` field is missing is not excluded: its route share defaults
to 0, which is ≤ `end_penalty`, so the full `max_penalty` 0.6 applies and
the emitted edge score is the pre-penalty edge score × (1 − 0.6) = × 0.4,
with the row reported at route share 0. -/
theorem missing_route_share_default (avgs : LeagueAvgs) (defs : DefTable)
    (row : WRRow) (rb : ResultB)
    (h : scoreRowB avgs {} defs row = some rb) (hn : row.route_share = none) :
    rb.route_share = 0 ∧
    rb.edge = rb.edge_pre * (1 - ({} : ConfigB).max_penalty) ∧
    rb.edge = rb.edge_pre * (2 / 5) := by
  obtain ⟨opp, d, -, -, -, -, rfl⟩ := (scoreRowB_some_iff _ _ _ _ _).mp h
  have hrs : (mkResultB avgs {} row d opp).route_share = 0 := by
    simp [mkResultB, hn]
  have hp : (mkResultB avgs {} row d opp).penalty =
      penaltyFor ({} : ConfigB).max_penalty ({} : ConfigB).exponent
        ({} : ConfigB).start_penalty ({} : ConfigB).end_penalty
        (mkResultB avgs {} row d opp).route_share := rfl
  rw [hrs] at hp
  have hp6 : (mkResultB avgs {} row d opp).penalty = 0.6 := by
    rw [hp]; norm_num [penaltyFor]
  have he : (mkResultB avgs {} row d opp).edge =
      (mkResultB avgs {} row d opp).edge_pre *
        (1 - (mkResultB avgs {} row d opp).penalty) := rfl
  rw [hp6] at he
  refine ⟨hrs, ?_, ?_⟩
  · rw [he]
  · rw [he]; norm_num

/-- Witness for `missing_route_share_default`: `rowP1` carries no
`route_share` value and is scored by `src/Inputs/app.py` at route share 0
with its edge multiplied by 0.4. -/
theorem missing_route_share_default_witness :
    (mkResultB (leagueAvgsOf defsKC) {} rowP1 defKC "KC").route_share = 0 ∧
    (mkResultB (leagueAvgsOf defsKC) {} rowP1 defKC "KC").edge =
      (mkResultB (leagueAvgsOf defsKC) {} rowP1 defKC "KC").edge_pre *
        (1 - ({} : ConfigB).max_penalty) ∧
    (mkResultB (leagueAvgsOf defsKC) {} rowP1 defKC "KC").edge =
      (mkResultB (leagueAvgsOf defsKC) {} rowP1 defKC "KC").edge_pre * (2 / 5) :=
  missing_route_share_default (leagueAvgsOf defsKC) defsKC rowP1 _
    (by norm_num [scoreRowB, rowP1, rowNeutral, defsKC, List.lookup]) rfl

/-- C6 counterexample: in `src/app.py` the route-share denominator is the
maximum `routes_played` over ALL rows of the input table, not over the
eligible rows only.  With the ineligible `rowP3` (base efficiency 0.1,
200 routes) in the table, the eligible `rowP1` (100 routes) is emitted with
route share 1/2, whereas the claimed eligible-maximum denominator (100)
would give route share 1. -/
theorem route_share_denominator_cex :
    (compute_model_A [rowP1, rowP3] defsKC {} false).map
        (fun p => p.2.route_share) = [1 / 2] ∧
    eligibleB defsKC rowP3 = false ∧
    eligibleLeadRoutes defsKC [rowP1, rowP3] = 100 ∧
    rowP1.routes_played / eligibleLeadRoutes defsKC [rowP1, rowP3] = 1 ∧
    (1 : ℚ) / 2 ≠ 1 := by
  refine ⟨?_, ?_, ?_, ?_, by norm_num⟩
  · norm_num [compute_model_A, filteredA, resultsA, scoreRowA, mkResultA, penaltyFor,
      league_lead_routes, seriesMax, defsKC, defKC, rowP1, rowP3, rowNeutral,
      List.insertionSort, List.orderedInsert, List.filterMap, List.lookup,
      List.range', List.zip, List.zipWith, List.map]
  · norm_num [eligibleB, rowP3, rowNeutral]
  · norm_num [eligibleLeadRoutes, eligibleB, seriesMax, rowP1, rowP3, rowNeutral,
      defsKC, List.lookup, List.filter, List.map]
  · norm_num [eligibleLeadRoutes, eligibleB, seriesMax, rowP1, rowP3, rowNeutral,
      defsKC, List.lookup, List.filter, List.map]

/-- C6 (amended): in `src/app.py` every emitted row's route share equals its
`routes_played` divided by the maximum `routes_played` over ALL rows of the
input table (`league_lead_routes`), eligible or not. -/
theorem route_share_denominator (wr : List WRRow) (defs : DefTable)
    (cfg : ConfigA) (q : Bool) (p : ℕ × ResultA)
    (hp : p ∈ compute_model_A wr defs cfg q) :
    ∃ row ∈ wr, p.2.route_share = row.routes_played / league_lead_routes wr := by
  obtain ⟨n, r⟩ := p
  have hr : r ∈ (filteredA wr defs cfg q).insertionSort (fun a b => b.edge ≤ a.edge) :=
    (List.of_mem_zip hp).2
  have hr2 : r ∈ filteredA wr defs cfg q := (List.mem_insertionSort _).mp hr
  have hr3 : r ∈ resultsA wr defs cfg := by
    unfold filteredA at hr2
    split_ifs at hr2 with hq
    · exact (List.mem_filter.mp hr2).1
    · exact hr2
  obtain ⟨row, hrow, hsc⟩ := List.mem_filterMap.mp hr3
  obtain ⟨opp, d, -, -, -, -, rfl⟩ := (scoreRowA_some_iff _ _ _ _ _).mp hsc
  exact ⟨row, hrow, rfl⟩

/-- Witness for `route_share_denominator`: on the table `[rowP1, rowP3]`
the single emitted row's route share is `rowP1`'s routes over the
whole-table maximum. -/
theorem route_share_denominator_witness :
    ∃ row ∈ [rowP1, rowP3],
      (mkResultA (league_lead_routes [rowP1, rowP3]) {} rowP1 defKC "KC").route_share =
        row.routes_played / league_lead_routes [rowP1, rowP3] :=
  route_share_denominator [rowP1, rowP3] defsKC {} false
    (1, mkResultA (league_lead_routes [rowP1, rowP3]) {} rowP1 defKC "KC")
    (by norm_num [compute_model_A, filteredA, resultsA, scoreRowA,
      league_lead_routes, seriesMax, rowP1, rowP3, rowNeutral, defsKC,
      List.insertionSort, List.orderedInsert, List.filterMap, List.lookup,
      List.range', List.zip, List.zipWith])

theorem le_foldl_max (xs : List ℚ) (init : ℚ) : init ≤ xs.foldl max init := by
  induction xs generalizing init with
  | nil => exact le_refl _
  | cons x xs ih => exact le_trans (le_max_left init x) (ih (max init x))

theorem mem_le_foldl_max {a : ℚ} {xs : List ℚ} (init : ℚ) (h : a ∈ xs) :
    a ≤ xs.foldl max init := by
  induction xs generalizing init with
  | nil => cases h
  | cons x xs ih =>
    rcases List.mem_cons.mp h with rfl | h'
    · exact le_trans (le_max_right init a) (le_foldl_max xs (max init a))
    · exact ih _ h'

theorem le_league_lead_routes {row : WRRow} {wr : List WRRow} (h : row ∈ wr) :
    row.routes_played ≤ league_lead_routes wr := by
  unfold league_lead_routes seriesMax
  cases wr with
  | nil => cases h
  | cons w ws =>
    simp only [List.map_cons]
    rcases List.mem_cons.mp h with rfl | h'
    · exact le_foldl_max _ _
    · exact mem_le_foldl_max _ (List.mem_map_of_mem _ h')

theorem safetyDivChecked_eq (s0 ts : ℚ) :
    safetyDivChecked s0 ts = some (if 0 < ts then s0 / ts else s0) := by
  unfold safetyDivChecked
  split_ifs with h
  · exact divQ_of_ne _ (ne_of_gt h)
  · rfl

theorem systemADivChecked_eq (num den alt : ℚ) :
    systemADivChecked num den alt =
      some (if 0 < den then num / den else alt / 2) := by
  unfold systemADivChecked
  split_ifs with h
  · exact divQ_of_ne _ (ne_of_gt h)
  · exact divQ_of_ne _ (by norm_num)

theorem devWeightChecked_eq (num den : ℚ) :
    devWeightChecked num den = some (if 0 < den then num / den else 0.5) := by
  unfold devWeightChecked
  split_ifs with h
  · exact divQ_of_ne _ (ne_of_gt h)
  · rfl

theorem mkResultAChecked_eq (lead : ℚ) (cfg : ConfigA) (row : WRRow)
    (defense : DefRow) (opp : String)
    (hb : ¬ row.base_yprr < 0.4) (hr : ¬ row.routes_played ≤ 0)
    (hl : row.routes_played ≤ lead) :
    mkResultAChecked lead cfg row defense opp =
      some (mkResultA lead cfg row defense opp) := by
  have hb0 : row.base_yprr ≠ 0 := fun h => hb (by rw [h]; norm_num)
  have hl0 : lead ≠ 0 := ne_of_gt (lt_of_lt_of_le (not_le.mp hr) hl)
  have h2 : (2 : ℚ) ≠ 0 := by norm_num
  have hq : (0.25 : ℚ) ≠ 0 := by norm_num
  rcases hby : row.yprr_blitz with - | v <;>
  · simp only [mkResultAChecked, mkResultA, hby, divQ_of_ne _ hb0, divQ_of_ne _ hl0,
      divQ_of_ne _ h2, divQ_of_ne _ hq, penaltyForChecked_eq, safetyDivChecked_eq,
      Option.bind_eq_bind, Option.some_bind]

theorem mkResultBChecked_eq (avgs : LeagueAvgs) (cfg : ConfigB) (row : WRRow)
    (defense : DefRow) (opp : String) (hb : ¬ row.base_yprr < 0.4) :
    mkResultBChecked avgs cfg row defense opp =
      some (mkResultB avgs cfg row defense opp) := by
  have hb0 : row.base_yprr ≠ 0 := fun h => hb (by rw [h]; norm_num)
  have h2 : (2 : ℚ) ≠ 0 := by norm_num
  have hq : (0.25 : ℚ) ≠ 0 := by norm_num
  simp only [mkResultBChecked, mkResultB, divQ_of_ne _ hb0, divQ_of_ne _ h2,
    divQ_of_ne _ hq, penaltyForChecked_eq, safetyDivChecked_eq, systemADivChecked_eq,
    devWeightChecked_eq, Option.bind_eq_bind, Option.some_bind]

/-- C8: in both variants every division sits behind workable guards: for any
row passing the eligibility filter, the fully division-checked evaluation
succeeds and agrees with the unchecked one (so the engine never hits a zero
denominator), and the safety component is divided by the shell-rate sum
exactly when that sum is positive (a proper weighted average), and is left
as the raw weighted sum otherwise. -/
theorem division_guards_spec (wr : List WRRow) (cfgA : ConfigA) (cfgB : ConfigB)
    (avgs : LeagueAvgs) (rowA rowB : WRRow) (dA dB : DefRow) (oA oB : String)
    (hmem : rowA ∈ wr)
    (hbA : ¬ rowA.base_yprr < 0.4) (hrA : ¬ rowA.routes_played ≤ 0)
    (hbB : ¬ rowB.base_yprr < 0.4) :
    mkResultAChecked (league_lead_routes wr) cfgA rowA dA oA =
      some (mkResultA (league_lead_routes wr) cfgA rowA dA oA) ∧
    mkResultBChecked avgs cfgB rowB dB oB =
      some (mkResultB avgs cfgB rowB dB oB) ∧
    ((0 : ℚ) < dA.onehigh_pct + dA.twohigh_pct + dA.zerohigh_pct →
      (mkResultA (league_lead_routes wr) cfgA rowA dA oA).safety_component =
        (dA.onehigh_pct * (rowA.yprr_1high / rowA.base_yprr) +
          dA.twohigh_pct * (rowA.yprr_2high / rowA.base_yprr) +
          dA.zerohigh_pct * (rowA.yprr_0high / rowA.base_yprr)) /
            (dA.onehigh_pct + dA.twohigh_pct + dA.zerohigh_pct)) ∧
    (¬ (0 : ℚ) < dA.onehigh_pct + dA.twohigh_pct + dA.zerohigh_pct →
      (mkResultA (league_lead_routes wr) cfgA rowA dA oA).safety_component =
        dA.onehigh_pct * (rowA.yprr_1high / rowA.base_yprr) +
          dA.twohigh_pct * (rowA.yprr_2high / rowA.base_yprr) +
          dA.zerohigh_pct * (rowA.yprr_0high / rowA.base_yprr)) := by
  have hsc : (mkResultA (league_lead_routes wr) cfgA rowA dA oA).safety_component =
      if 0 < dA.onehigh_pct + dA.twohigh_pct + dA.zerohigh_pct then
        (dA.onehigh_pct * (rowA.yprr_1high / rowA.base_yprr) +
          dA.twohigh_pct * (rowA.yprr_2high / rowA.base_yprr) +
          dA.zerohigh_pct * (rowA.yprr_0high / rowA.base_yprr)) /
            (dA.onehigh_pct + dA.twohigh_pct + dA.zerohigh_pct)
      else
        dA.onehigh_pct * (rowA.yprr_1high / rowA.base_yprr) +
          dA.twohigh_pct * (rowA.yprr_2high / rowA.base_yprr) +
          dA.zerohigh_pct * (rowA.yprr_0high / rowA.base_yprr) := rfl
  refine ⟨mkResultAChecked_eq _ _ _ _ _ hbA hrA (le_league_lead_routes hmem),
    mkResultBChecked_eq _ _ _ _ _ hbB, ?_, ?_⟩
  · intro h; rw [hsc, if_pos h]
  · intro h; rw [hsc, if_neg h]

/-- Witness for `division_guards_spec`: concrete eligible rows against
`defKC`; the checked evaluations succeed in both variants. -/
theorem division_guards_spec_witness :
    mkResultAChecked (league_lead_routes [rowP1, rowP3]) {} rowP1 defKC "KC" =
      some (mkResultA (league_lead_routes [rowP1, rowP3]) {} rowP1 defKC "KC") ∧
    mkResultBChecked (leagueAvgsOf defsKC) {} rowP1 defKC "KC" =
      some (mkResultB (leagueAvgsOf defsKC) {} rowP1 defKC "KC") := by
  have h := division_guards_spec [rowP1, rowP3] {} {} (leagueAvgsOf defsKC)
    rowP1 rowP1 defKC defKC "KC" "KC" (by norm_num)
    (by norm_num [rowP1, rowNeutral]) (by norm_num [rowP1, rowNeutral])
    (by norm_num [rowP1, rowNeutral])
  exact ⟨h.1, h.2.1⟩
